import Mathlib

/-
Shallow embedding of the Young Islanders sharepic generator
(src/template.py and the score normalization of src/run.py).

Real-valued quantities of the source (Python floats) are modelled as
exact rationals; machine strings as Lean strings or lists of
characters; exceptions as an explicit error type in Except.
-/

namespace Sharepic

/-! ## Canvas constants (src/template.py, lines 17-23) -/

def WIDTH_PTS : ℚ := 1080

def HEIGHT_PTS : ℚ := 1350

def DPI : ℚ := 96

/-- MM_TO_UNITS = DPI / 25.4 (template.py line 21). -/
def MM_TO_UNITS : ℚ := DPI / (254 / 10)

/-! ## TypeScale (src/template.py, lines 26-43) -/

/-- The eight named font sizes of a type scale. -/
structure TypeScale where
  H1 : ℚ
  H2 : ℚ
  H3 : ℚ
  H4 : ℚ
  H5 : ℚ
  BODY : ℚ
  CAPTION : ℚ
  SMALL : ℚ
deriving DecidableEq, Repr

/-- TypeScale.__init__ (template.py lines 29-43): H5 = ratio*base, and each
further Hk multiplies the previous one by the ratio; BODY = base,
CAPTION = base/ratio, SMALL = CAPTION/ratio.  The source performs no
input validation of any kind. -/
def mkTypeScale (base ratio : ℚ) : TypeScale :=
  let h5 := ratio * base
  let h4 := ratio * h5
  let h3 := ratio * h4
  let h2 := ratio * h3
  let h1 := ratio * h2
  let caption := base / ratio
  ⟨h1, h2, h3, h4, h5, base, caption, caption / ratio⟩

/-! ## Coordinates and errors -/

/-- Coordinate dataclass (template.py lines 46-51). -/
structure Coordinate where
  x_pos : ℚ
  y_pos : ℚ
deriving DecidableEq, Repr

/-- The exceptions a render pass can raise: the failed assert in
BoxOfRectangles.__init__ (line 79), OverflowingHBoxError (line 100), and the
ValueError of the tuple unpacking of the colon split at line 321. -/
inductive Err where
  | assertionFailed : Err
  | overflowingHBox : Err
  | valueUnpack : Err
deriving DecidableEq, Repr

/-! ## BoxOfRectangles (src/template.py, lines 60-104) -/

def RECT_H : ℚ := 30 * MM_TO_UNITS

def RECT_W : ℚ := (1 - 4 / 30) * WIDTH_PTS

def H_PAD : ℚ := 1 / 30 * WIDTH_PTS

/-- y_pos_start of BoxOfRectangles.__init__ (lines 76-85): the vertical
center of the box minus the height of the upper half of the stack. -/
def yPosStart (n : ℕ) (topY bottomY : ℚ) : ℚ :=
  let nRectanglesUpperHalf : ℚ := (n : ℚ) / 2
  let nPadsUpperHalf : ℚ := nRectanglesUpperHalf - 1 / 2
  let boxHeight := bottomY - topY
  let centerOfBox := topY + boxHeight / 2
  centerOfBox - (nRectanglesUpperHalf * RECT_H + nPadsUpperHalf * H_PAD)

/-- The y position of the i-th rectangle: the loop of lines 88-93 starts at
y_pos_start and advances by RECT_H + H_PAD per rectangle. -/
def slotY (n : ℕ) (topY bottomY : ℚ) (i : ℕ) : ℚ :=
  yPosStart n topY bottomY + (i : ℚ) * (RECT_H + H_PAD)

/-- The rectangle list built by the loop of lines 88-93: n coordinates, all
at x = (WIDTH_PTS - RECT_W)/2, the i-th at slotY n topY bottomY i. -/
def boxRects (n : ℕ) (topY bottomY : ℚ) : List Coordinate :=
  (List.range n).map (fun i => ⟨(WIDTH_PTS - RECT_W) / 2, slotY n topY bottomY i⟩)

/-- BoxOfRectangles.__init__ (lines 72-100): asserts top_y < bottom_y,
builds the rectangles, then raises OverflowingHBoxError when the bottom of
the lowest rectangle (current_y_pos - H_PAD after the loop, i.e. y_pos_start
+ n*(RECT_H + H_PAD) - H_PAD) exceeds bottom_y.  Nothing is clamped: on
overflow no object is produced. -/
def boxOfRectangles (n : ℕ) (topY bottomY : ℚ) : Except Err (List Coordinate) :=
  if topY < bottomY then
    let lowestRectY := yPosStart n topY bottomY + (n : ℚ) * (RECT_H + H_PAD) - H_PAD
    if lowestRectY > bottomY then Except.error Err.overflowingHBox
    else Except.ok (boxRects n topY bottomY)
  else Except.error Err.assertionFailed

/-! ## Colon splitting (the Python str.split with a one-character separator) -/

/-- Python str.split with separator given: splitting the empty string yields
one empty field, and each colon opens a new field. -/
def splitOnColon : List Char → List (List Char)
  | [] => [[]]
  | c :: cs =>
    match splitOnColon cs with
    | [] => [[]]
    | p :: ps => if c = ':' then [] :: p :: ps else (c :: p) :: ps

/-- The tuple unpacking at template.py line 321: succeeds exactly when the
split yields two fields. -/
def pairSplit (s : List Char) : Option (List Char × List Char) :=
  match splitOnColon s with
  | [l, r] => some (l, r)
  | _ => none

/-- pairSplit lifted to strings. -/
def pairSplitStr (v : String) : Option (String × String) :=
  (pairSplit v.toList).map (fun p => (String.mk p.1, String.mk p.2))

/-- unpack as used in the renderer: a ValueError when the value does not
split into exactly two fields. -/
def unpackVal (v : String) : Except Err (String × String) :=
  match pairSplitStr v with
  | some p => Except.ok p
  | none => Except.error Err.valueUnpack

/-! ## Game data rows and the renderer (src/template.py, lines 107-346)

A row of the week-filtered game_data frame: the Team index, the Datum,
Gegner, Zeit and Spielstand columns (src/consts.py).  The ISO-week filter
itself (pandas datetime handling, template.py lines 125-127) happens before
the part modelled here; renderer inputs are the already-filtered rows. -/

structure Row where
  team : String
  date : String
  opponent : String
  time : String
  goals : String
deriving DecidableEq, Repr

/-- pandas Index.unique: distinct values in order of first occurrence. -/
def uniqueFirst (l : List String) : List String :=
  l.foldl (fun acc t => if t ∈ acc then acc else acc ++ [t]) []

/-- The set difference at template.py line 128 removes these teams from the
slot count when scores are rendered. -/
def noScoreTeams : List String := ["U11", "U9"]

/-- n_teams (template.py line 128): the number of distinct teams in the
filtered data, with U11 and U9 removed when scores is set. -/
def nTeams (rows : List Row) (scores : Bool) : ℕ :=
  let teams := uniqueFirst (rows.map Row.team)
  (if scores then teams.filter (fun t => ¬ t ∈ noScoreTeams) else teams).length

/-- What one loop iteration of SharepicGenerator.__call__ (lines 276-344)
draws into one rectangle: the white card, the team label, the date and
opponent lines, and the colon-aligned value pairs. -/
structure DrawnCard where
  team : String
  rect : Coordinate
  dates : List String
  opponents : List String
  valuePairs : List (String × String)
deriving DecidableEq, Repr

/-- The loop body of SharepicGenerator.__call__ over the zip of rectangles
and unique teams (lines 276-344): a U11/U9 pair is skipped in score mode
(consuming its rectangle); otherwise the team rows are selected, the Zeit
or Spielstand values are split at the colon (ValueError aborting the whole
pass when a value does not have exactly two fields), and a card is drawn. -/
def drawCards (rows : List Row) (scores : Bool) :
    List (Coordinate × String) → Except Err (List DrawnCard)
  | [] => Except.ok []
  | (rect, t) :: rest =>
    if scores = true ∧ t ∈ noScoreTeams then drawCards rows scores rest
    else do
      let teamRows := rows.filter (fun r => r.team = t)
      let vals := teamRows.map (fun r => if scores then r.goals else r.time)
      let pairs ← vals.mapM unpackVal
      let others ← drawCards rows scores rest
      pure (⟨t, rect, teamRows.map Row.date, teamRows.map Row.opponent, pairs⟩ :: others)

/-- bottom_y of SharepicGenerator.__init__ (line 147). -/
def BOTTOM_Y : ℚ := 315 * MM_TO_UNITS

/-- One render pass: __init__ computes n_teams and the BoxOfRectangles
(propagating its exceptions), __call__ zips the rectangles with the unique
teams of the index and draws the cards.  top_y comes from the headline text
extents at runtime and is a parameter here. -/
def renderPass (rows : List Row) (scores : Bool) (topY bottomY : ℚ) :
    Except Err (List Coordinate × List DrawnCard) := do
  let slots ← boxOfRectangles (nTeams rows scores) topY bottomY
  let teams := uniqueFirst (rows.map Row.team)
  let cards ← drawCards rows scores (slots.zip teams)
  pure (slots, cards)

/-! ## The away-score normalization of the legacy path (src/run.py, 276-281) -/

/-- Python str.startswith for the away marker. -/
def beginsWith : List Char → List Char → Bool
  | [], _ => true
  | _ :: _, [] => false
  | p :: ps, c :: cs => p == c && beginsWith ps cs

/-- Python str.join with a colon separator. -/
def joinColon : List (List Char) → List Char
  | [] => []
  | [p] => p
  | p :: ps => p ++ ':' :: joinColon ps

/-- run.py scorecard, lines 276-281: when the raw Gegner value marks an away
game, the score string is split at the colons, reversed, and rejoined;
otherwise it is left unchanged. -/
def scorecardGoals (versus goalsStr : String) : String :=
  if beginsWith "@ ".toList versus.toList then
    String.mk (joinColon (splitOnColon goalsStr.toList).reverse)
  else goalsStr

/-! ## The text block writer (src/template.py, lines 348-377) -/

def LINE_SPACING : ℚ := 13

/-- total_text_height (lines 366-369): for k lines,
k*(ascent + descent) + (k - 1)*line_spacing, with Python integer
arithmetic on k - 1 (so the formula is over the integers, not truncated). -/
def totalTextHeight (k : ℕ) (ascent descent : ℚ) : ℚ :=
  (k : ℚ) * (ascent + descent) + ((k : ℚ) - 1) * LINE_SPACING

/-- start_y (line 371): the block is centered in the RECT_H-high slot that
starts at text_y. -/
def startYOf (textY : ℚ) (k : ℕ) (ascent descent : ℚ) : ℚ :=
  textY + (RECT_H - totalTextHeight k ascent descent) / 2

/-- SharepicGenerator._write_text_at (lines 348-377).  A lone string becomes
a singleton list; a scalar x is broadcast to every line; then each line i of
the zip of lines and x positions is drawn at
(x_i, start_y + i*(single_line_height + spacing) + ascent).  The ascent and
descent come from the font extents of the Cairo context for the chosen font
size and are parameters here.  The output is the list of
(x, text, baseline y) draw calls; the zip truncates at the shorter of the
two sequences and this function raises nothing. -/
def writeTextAt (textX : ℚ ⊕ List ℚ) (textY : ℚ)
    (textContent : String ⊕ List String) (ascent descent : ℚ) :
    List (ℚ × String × ℚ) :=
  let content := match textContent with
    | Sum.inl s => [s]
    | Sum.inr l => l
  let xs := match textX with
    | Sum.inl x => content.map (fun _ => x)
    | Sum.inr l => l
  let singleLineHeight := ascent + descent
  let startY := startYOf textY content.length ascent descent
  (content.zip xs).enum.map (fun p =>
    (p.2.2, p.2.1, startY + (p.1 : ℚ) * (singleLineHeight + LINE_SPACING) + ascent))

/-! ## Theorems -/

/-- Unfolding equation for boxOfRectangles. -/
theorem boxOfRectangles_eq (n : ℕ) (topY bottomY : ℚ) :
    boxOfRectangles n topY bottomY =
      if topY < bottomY then
        if yPosStart n topY bottomY + (n : ℚ) * (RECT_H + H_PAD) - H_PAD > bottomY then
          Except.error Err.overflowingHBox
        else Except.ok (boxRects n topY bottomY)
      else Except.error Err.assertionFailed := rfl

/-- The C1 property: the box holds exactly n rectangles, the i-th at the
shared x = (WIDTH_PTS - RECT_W)/2 and at y = slotY n topY bottomY i;
consecutive y positions differ by exactly RECT_H + H_PAD and increase
strictly; the stack is symmetric about the vertical midpoint of the region;
and a successful construction returns exactly this rectangle list. -/
def BoxLayoutProp (n : ℕ) (topY bottomY : ℚ) : Prop :=
  (boxRects n topY bottomY).length = n ∧
  (∀ i, i < n → (boxRects n topY bottomY)[i]? =
      some ⟨(WIDTH_PTS - RECT_W) / 2, slotY n topY bottomY i⟩) ∧
  (∀ i, slotY n topY bottomY (i + 1) = slotY n topY bottomY i + (RECT_H + H_PAD)) ∧
  (∀ i, slotY n topY bottomY i < slotY n topY bottomY (i + 1)) ∧
  ((topY + bottomY) / 2 - slotY n topY bottomY 0 =
    (slotY n topY bottomY (n - 1) + RECT_H) - (topY + bottomY) / 2) ∧
  (∀ rs, boxOfRectangles n topY bottomY = Except.ok rs → rs = boxRects n topY bottomY)

/-- C1: for every n ≥ 1 and topY < bottomY, the rectangle stack has exactly
n slots, ordered top to bottom with strictly increasing y, spaced by exactly
RECT_H + H_PAD, all at x = (WIDTH_PTS - RECT_W)/2, and symmetric about the
midpoint (topY + bottomY)/2: the distance from the midpoint up to the top of
the first slot equals the distance from the midpoint down to the bottom of
the last slot, for even and odd n alike. -/
theorem box_layout (n : ℕ) (topY bottomY : ℚ) (hn : 1 ≤ n) (hlt : topY < bottomY) :
    BoxLayoutProp n topY bottomY := by
  have hRP : (0 : ℚ) < RECT_H + H_PAD := by
    norm_num [RECT_H, H_PAD, MM_TO_UNITS, DPI, WIDTH_PTS]
  have hstep : ∀ i, slotY n topY bottomY (i + 1) =
      slotY n topY bottomY i + (RECT_H + H_PAD) := by
    intro i
    simp only [slotY]
    push_cast
    ring
  refine ⟨by simp [boxRects], ?_, hstep, ?_, ?_, ?_⟩
  · intro i hi
    simp [boxRects, List.getElem?_map, List.getElem?_range, hi]
  · intro i
    rw [hstep i]
    linarith
  · have hc : ((n - 1 : ℕ) : ℚ) = (n : ℚ) - 1 := by
      rw [Nat.cast_sub hn, Nat.cast_one]
    simp only [slotY, yPosStart, hc]
    push_cast
    ring
  · intro rs h
    rw [boxOfRectangles_eq, if_pos hlt] at h
    split_ifs at h with hov
    injection h with h2
    exact h2.symm

/-- C1 witness: three slots between y = 0 and y = 1000. -/
theorem box_layout_witness :
    1 ≤ 3 ∧ (0 : ℚ) < 1000 ∧ BoxLayoutProp 3 0 1000 :=
  ⟨by norm_num, by norm_num, box_layout 3 0 1000 (by norm_num) (by norm_num)⟩

/-- The C2 property: with topY < bottomY, construction raises
OverflowingHBoxError exactly when the stacked height n*RECT_H +
(n - 1)*H_PAD exceeds bottomY - topY, and n = 0 yields an empty list with
no error. -/
def BoxOverflowProp (n : ℕ) (topY bottomY : ℚ) : Prop :=
  (boxOfRectangles n topY bottomY = Except.error Err.overflowingHBox ↔
    (n : ℚ) * RECT_H + ((n : ℚ) - 1) * H_PAD > bottomY - topY) ∧
  boxOfRectangles 0 topY bottomY = Except.ok []

/-- C2: BoxOfRectangles raises OverflowingHBoxError if and only if the total
stacked height n*RECT_H + (n - 1)*H_PAD exceeds bottomY - topY; nothing is
clamped on overflow (no rectangle list is returned at all), and n = 0 always
yields an empty slot sequence without error. -/
theorem box_overflow_iff (n : ℕ) (topY bottomY : ℚ) (hlt : topY < bottomY) :
    BoxOverflowProp n topY bottomY := by
  have key : ∀ m : ℕ, yPosStart m topY bottomY + (m : ℚ) * (RECT_H + H_PAD) - H_PAD - bottomY
      = ((m : ℚ) * RECT_H + ((m : ℚ) - 1) * H_PAD - (bottomY - topY)) / 2 := by
    intro m
    simp only [yPosStart]
    ring
  have hP : (0 : ℚ) < H_PAD := by norm_num [H_PAD, WIDTH_PTS]
  constructor
  · rw [boxOfRectangles_eq, if_pos hlt]
    split_ifs with hov
    · refine iff_of_true rfl ?_
      linarith [key n]
    · refine iff_of_false (by simp) ?_
      intro hgt
      have hle := not_lt.mp hov
      linarith [key n]
  · have h0 : ¬ (yPosStart 0 topY bottomY + ((0 : ℕ) : ℚ) * (RECT_H + H_PAD) - H_PAD
        > bottomY) := by
      intro hcon
      have k0 := key 0
      push_cast at k0 hcon
      linarith
    rw [boxOfRectangles_eq, if_pos hlt, if_neg h0]
    simp [boxRects]

/-- C2 witness: between y = 0 and y = 1000, eight slots overflow (the iff
gives the error) and zero slots give the empty sequence. -/
theorem box_overflow_iff_witness :
    (0 : ℚ) < 1000 ∧ BoxOverflowProp 8 0 1000 :=
  ⟨by norm_num, box_overflow_iff 8 0 1000 (by norm_num)⟩

/-- The C8 property at base b and scale r: the concrete values of
TypeScale(32, 1.2), the power form of each heading size (the exponent grows
from H5 toward H1, as the ladder is built multiplicatively upward), and the
strict ordering of the eight sizes. -/
def TypeScaleLadder (b r : ℚ) : Prop :=
  ((mkTypeScale 32 (6 / 5)).BODY = 32 ∧
    (mkTypeScale 32 (6 / 5)).H5 = 192 / 5 ∧
    (mkTypeScale 32 (6 / 5)).H4 = 1152 / 25 ∧
    (mkTypeScale 32 (6 / 5)).CAPTION = 32 / (6 / 5) ∧
    (mkTypeScale 32 (6 / 5)).SMALL = (mkTypeScale 32 (6 / 5)).CAPTION / (6 / 5) ∧
    (mkTypeScale 32 (6 / 5)).H4 = (6 / 5) * (mkTypeScale 32 (6 / 5)).H5 ∧
    (mkTypeScale 32 (6 / 5)).H3 = (6 / 5) * (mkTypeScale 32 (6 / 5)).H4 ∧
    (mkTypeScale 32 (6 / 5)).H2 = (6 / 5) * (mkTypeScale 32 (6 / 5)).H3 ∧
    (mkTypeScale 32 (6 / 5)).H1 = (6 / 5) * (mkTypeScale 32 (6 / 5)).H2) ∧
  ((mkTypeScale b r).H5 = r ^ 1 * b ∧
    (mkTypeScale b r).H4 = r ^ 2 * b ∧
    (mkTypeScale b r).H3 = r ^ 3 * b ∧
    (mkTypeScale b r).H2 = r ^ 4 * b ∧
    (mkTypeScale b r).H1 = r ^ 5 * b) ∧
  ((mkTypeScale b r).H1 > (mkTypeScale b r).H2 ∧
    (mkTypeScale b r).H2 > (mkTypeScale b r).H3 ∧
    (mkTypeScale b r).H3 > (mkTypeScale b r).H4 ∧
    (mkTypeScale b r).H4 > (mkTypeScale b r).H5 ∧
    (mkTypeScale b r).H5 > (mkTypeScale b r).BODY ∧
    (mkTypeScale b r).BODY > (mkTypeScale b r).CAPTION ∧
    (mkTypeScale b r).CAPTION > (mkTypeScale b r).SMALL)

/-- C8: TypeScale(32, 1.2) yields BODY = 32, H5 = 38.4, H4 = 46.08,
CAPTION = 32/1.2 and SMALL = CAPTION/1.2, each successive heading size
being the next-smaller size times the ratio; and for every base > 0 and
ratio > 1 the eight sizes are strictly ordered
H1 > H2 > H3 > H4 > H5 > BODY > CAPTION > SMALL, the k-th heading above
BODY being ratio^k times the base. -/
theorem typeScale_ladder (b r : ℚ) (hb : 0 < b) (hr : 1 < r) :
    TypeScaleLadder b r := by
  have hr0 : 0 < r := lt_trans one_pos hr
  have hmul : ∀ x : ℚ, 0 < x → x < r * x := by
    intro x hx
    nlinarith
  have p1 : 0 < r * b := mul_pos hr0 hb
  have p2 : 0 < r * (r * b) := mul_pos hr0 p1
  have p3 : 0 < r * (r * (r * b)) := mul_pos hr0 p2
  have p4 : 0 < r * (r * (r * (r * b))) := mul_pos hr0 p3
  refine ⟨?_, ?_, ?_⟩
  · norm_num [mkTypeScale]
  · refine ⟨?_, ?_, ?_, ?_, ?_⟩ <;> (simp only [mkTypeScale]; ring)
  · simp only [mkTypeScale]
    refine ⟨hmul _ p4, hmul _ p3, hmul _ p2, hmul _ p1, hmul _ hb, ?_, ?_⟩
    · exact div_lt_self hb hr
    · exact div_lt_self (div_pos hb hr0) hr

/-- C8 witness: the ladder at base 32 and ratio 1.2. -/
theorem typeScale_ladder_witness :
    (0 : ℚ) < 32 ∧ (1 : ℚ) < 6 / 5 ∧ TypeScaleLadder 32 (6 / 5) :=
  ⟨by norm_num, by norm_num, typeScale_ladder 32 (6 / 5) (by norm_num) (by norm_num)⟩

/-- Mapping a function of the indices over an enumerated list. -/
theorem map_fst_enumFrom {α β : Type} (g : ℕ → β) :
    ∀ (l : List α) (j : ℕ),
      (List.enumFrom j l).map (fun p => g p.1) = (List.range' j l.length).map g
  | [], _ => rfl
  | _ :: l, j => by
    simp only [List.enumFrom, List.length_cons, List.range', List.map_cons]
    exact congrArg _ (map_fst_enumFrom g l (j + 1))

/-- Mapping a function of the indices over List.enum. -/
theorem map_fst_enum {α β : Type} (g : ℕ → β) (l : List α) :
    l.enum.map (fun p => g p.1) = (List.range l.length).map g := by
  rw [List.enum, map_fst_enumFrom, List.range_eq_range']

/-- Mapping a function of the values over an enumerated list. -/
theorem map_snd_enumFrom {α β : Type} (g : α → β) :
    ∀ (l : List α) (j : ℕ), (List.enumFrom j l).map (fun p => g p.2) = l.map g
  | [], _ => rfl
  | _ :: l, j => by
    simp only [List.enumFrom, List.map_cons]
    exact congrArg _ (map_snd_enumFrom g l (j + 1))

/-- Mapping a function of the values over List.enum. -/
theorem map_snd_enum {α β : Type} (g : α → β) (l : List α) :
    l.enum.map (fun p => g p.2) = l.map g := by
  rw [List.enum, map_snd_enumFrom]

/-- First projection of a zip of equally long lists. -/
theorem zip_map_fst {α β : Type} :
    ∀ (l1 : List α) (l2 : List β), l1.length ≤ l2.length →
      (l1.zip l2).map (fun p => p.1) = l1
  | [], _, _ => rfl
  | _ :: _, [], h => by simp at h
  | a :: l1, b :: l2, h => by
    simp only [List.zip_cons_cons, List.map_cons, List.cons.injEq, true_and]
    exact zip_map_fst l1 l2 (Nat.le_of_succ_le_succ h)

/-- Second projection of a zip of equally long lists. -/
theorem zip_map_snd {α β : Type} :
    ∀ (l1 : List α) (l2 : List β), l2.length ≤ l1.length →
      (l1.zip l2).map (fun p => p.2) = l2
  | _, [], _ => by simp
  | [], _ :: _, h => by simp at h
  | a :: l1, b :: l2, h => by
    simp only [List.zip_cons_cons, List.map_cons, List.cons.injEq, true_and]
    exact zip_map_snd l1 l2 (Nat.le_of_succ_le_succ h)

/-- The C6 property: the baseline of line i is
startY + i*(lineHeight + spacing) + ascent with
startY = textY + (RECT_H - totalHeight)/2; each line keeps its own x and
text; and the 3-line start is below the 1-line start by exactly half the
difference of the total heights. -/
def WriteBlockProp (textY ascent descent : ℚ) (lines : List String) (xs : List ℚ) : Prop :=
  (writeTextAt (Sum.inr xs) textY (Sum.inr lines) ascent descent).map (fun e => e.2.2)
    = (List.range lines.length).map (fun i : ℕ =>
        startYOf textY lines.length ascent descent
          + (i : ℚ) * ((ascent + descent) + LINE_SPACING) + ascent) ∧
  (writeTextAt (Sum.inr xs) textY (Sum.inr lines) ascent descent).map (fun e => e.1) = xs ∧
  (writeTextAt (Sum.inr xs) textY (Sum.inr lines) ascent descent).map (fun e => e.2.1) = lines ∧
  startYOf textY 3 ascent descent
    = startYOf textY 1 ascent descent
      - (totalTextHeight 3 ascent descent - totalTextHeight 1 ascent descent) / 2

/-- C6: for every list of k ≥ 1 lines and per-line x positions of matching
length, the text block writer starts the block at
startY = slotTopY + (RECT_H - totalHeight)/2 with
totalHeight = k*(ascent + descent) + (k - 1)*spacing, and places line i's
baseline at startY + i*(lineHeight + spacing) + ascent; for the same font
metrics and slot, the startY for 3 lines is below the startY for 1 line by
exactly (totalHeight_3 - totalHeight_1)/2. -/
theorem write_block_layout (textY ascent descent : ℚ) (lines : List String)
    (xs : List ℚ) (_hk : 1 ≤ lines.length) (hx : xs.length = lines.length) :
    WriteBlockProp textY ascent descent lines xs := by
  have hlen : (lines.zip xs).length = lines.length := by
    rw [List.length_zip, hx, min_self]
  refine ⟨?_, ?_, ?_, ?_⟩
  · simp only [writeTextAt]
    rw [List.map_map]
    have hc1 : ((fun e : ℚ × String × ℚ => e.2.2) ∘ fun p : ℕ × (String × ℚ) =>
          ((p.2.2 : ℚ), p.2.1, startYOf textY lines.length ascent descent
            + (p.1 : ℚ) * (ascent + descent + LINE_SPACING) + ascent))
        = fun p : ℕ × (String × ℚ) =>
            (fun i : ℕ => startYOf textY lines.length ascent descent
              + (i : ℚ) * (ascent + descent + LINE_SPACING) + ascent) p.1 := rfl
    rw [hc1, map_fst_enum (fun i : ℕ => startYOf textY lines.length ascent descent
      + (i : ℚ) * (ascent + descent + LINE_SPACING) + ascent) (lines.zip xs), hlen]
  · simp only [writeTextAt]
    rw [List.map_map]
    have hc2 : ((fun e : ℚ × String × ℚ => e.1) ∘ fun p : ℕ × (String × ℚ) =>
          ((p.2.2 : ℚ), p.2.1, startYOf textY lines.length ascent descent
            + (p.1 : ℚ) * (ascent + descent + LINE_SPACING) + ascent))
        = fun p : ℕ × (String × ℚ) =>
            (fun q : String × ℚ => q.2) p.2 := rfl
    rw [hc2, map_snd_enum (fun q : String × ℚ => q.2) (lines.zip xs)]
    exact zip_map_snd lines xs (le_of_eq hx)
  · simp only [writeTextAt]
    rw [List.map_map]
    have hc3 : ((fun e : ℚ × String × ℚ => e.2.1) ∘ fun p : ℕ × (String × ℚ) =>
          ((p.2.2 : ℚ), p.2.1, startYOf textY lines.length ascent descent
            + (p.1 : ℚ) * (ascent + descent + LINE_SPACING) + ascent))
        = fun p : ℕ × (String × ℚ) =>
            (fun q : String × ℚ => q.1) p.2 := rfl
    rw [hc3, map_snd_enum (fun q : String × ℚ => q.1) (lines.zip xs)]
    exact zip_map_fst lines xs (le_of_eq hx.symm)
  · simp only [startYOf, totalTextHeight]
    push_cast
    ring

/-- C6 witness: three lines at ascent 20, descent 5 in a slot starting at
y = 100. -/
theorem write_block_layout_witness :
    1 ≤ (["a", "b", "c"] : List String).length ∧
      ([(1 : ℚ), 2, 3] : List ℚ).length = (["a", "b", "c"] : List String).length ∧
      WriteBlockProp 100 20 5 ["a", "b", "c"] [1, 2, 3] :=
  ⟨by norm_num, by norm_num,
    write_block_layout 100 20 5 ["a", "b", "c"] [1, 2, 3] (by norm_num) (by norm_num)⟩

/-- C7 counterexample: called with two lines but a single-element x position
sequence, the writer raises nothing and silently draws only the first line
(the zip at template.py line 373 truncates), so the second line is dropped
rather than the call failing. -/
theorem writeText_mismatch_counterexample :
    (writeTextAt (Sum.inr [(5 : ℚ)]) 0 (Sum.inr ["a", "b"]) 20 5).map
        (fun e => e.2.1) = ["a"] := by
  rfl

/-- C7 amended: a per-line x sequence whose length differs from the number
of lines is not rejected; the writer silently draws
min(number of lines, number of x positions) lines, truncating at the
shorter sequence. -/
theorem writeText_mismatch_truncates (xs : List ℚ) (lines : List String)
    (textY ascent descent : ℚ) :
    (writeTextAt (Sum.inr xs) textY (Sum.inr lines) ascent descent).length
      = min lines.length xs.length := by
  simp only [writeTextAt]
  rw [List.length_map, List.enum_length, List.length_zip]

/-- C9 counterexample: TypeScale.__init__ does no validation, so a
non-positive base size of -32 (with the valid ratio 1.2) still yields a
scale object, with BODY = -32 and a negative H5, instead of failing. -/
theorem typeScale_no_validation_counterexample :
    (mkTypeScale (-32) (6 / 5)).BODY = -32 ∧ (mkTypeScale (-32) (6 / 5)).H5 < 0 := by
  constructor <;> norm_num [mkTypeScale]

/-- C9 amended: TypeScale construction does not reject non-positive base
sizes; for every base ≤ 0 and ratio > 0 an object is produced with
BODY equal to the base and H5 non-positive (a degenerate scale). -/
theorem typeScale_accepts_nonpositive (b r : ℚ) (hb : b ≤ 0) (hr : 0 < r) :
    (mkTypeScale b r).BODY = b ∧ (mkTypeScale b r).H5 ≤ 0 := by
  refine ⟨rfl, ?_⟩
  simp only [mkTypeScale]
  exact mul_nonpos_of_nonneg_of_nonpos (le_of_lt hr) hb

/-- C9 amended witness: base -1, ratio 1.2. -/
theorem typeScale_accepts_nonpositive_witness :
    (-1 : ℚ) ≤ 0 ∧ (0 : ℚ) < 6 / 5 ∧
      ((mkTypeScale (-1) (6 / 5)).BODY = -1 ∧ (mkTypeScale (-1) (6 / 5)).H5 ≤ 0) :=
  ⟨by norm_num, by norm_num, typeScale_accepts_nonpositive (-1) (6 / 5) (by norm_num) (by norm_num)⟩

/-! ## Splitting facts and concrete render inputs -/

/-- The Python split never yields an empty field list. -/
theorem splitOnColon_ne_nil : ∀ s : List Char, splitOnColon s ≠ [] := by
  intro s
  cases s with
  | nil => simp [splitOnColon]
  | cons c cs =>
    unfold splitOnColon
    cases hs : splitOnColon cs with
    | nil => simp
    | cons p ps =>
      by_cases hc : c = ':' <;> simp [hc]

/-- The Python split yields one more field than there are colons. -/
theorem length_splitOnColon : ∀ s : List Char, (splitOnColon s).length = s.count ':' + 1 := by
  intro s
  induction s with
  | nil => simp [splitOnColon]
  | cons c cs ih =>
    unfold splitOnColon
    cases hs : splitOnColon cs with
    | nil => exact absurd hs (splitOnColon_ne_nil cs)
    | cons p ps =>
      rw [hs] at ih
      by_cases hc : c = ':'
      · subst hc
        simp only [if_pos rfl, List.length_cons, List.count_cons, beq_self_eq_true,
          if_true] at ih ⊢
        omega
      · have hb : (c == ':') = false := by
          simp only [beq_eq_false_iff_ne, ne_eq]
          exact hc
        simp [if_neg hc, List.count_cons, hb] at ih ⊢
        omega

/-- The tuple unpacking succeeds exactly when the value has exactly one
colon. -/
theorem pairSplit_isSome_iff (s : List Char) :
    (pairSplit s).isSome ↔ s.count ':' = 1 := by
  have h := length_splitOnColon s
  cases hs : splitOnColon s with
  | nil => exact absurd hs (splitOnColon_ne_nil s)
  | cons a t =>
    cases t with
    | nil =>
      rw [hs] at h
      simp only [List.length_cons, List.length_nil] at h
      unfold pairSplit
      rw [hs]
      simp only [Option.isSome_none]
      constructor
      · intro hfalse
        exact absurd hfalse (by simp)
      · intro h1
        omega
    | cons b t2 =>
      cases t2 with
      | nil =>
        rw [hs] at h
        simp only [List.length_cons, List.length_nil] at h
        unfold pairSplit
        rw [hs]
        simp only [Option.isSome_some, true_iff]
        omega
      | cons c2 t3 =>
        rw [hs] at h
        simp only [List.length_cons] at h
        unfold pairSplit
        rw [hs]
        constructor
        · intro hfalse
          exact absurd hfalse (by simp)
        · intro h1
          omega

/-- A week of game data: the U17 home game with a reported score. -/
def rowU17 : Row := ⟨"U17", "04.10.2025", "ECDC Memmingen [H]", "18:30", "3:5"⟩

/-- A U11 game in the same week (U11 reports no scores). -/
def rowU11 : Row := ⟨"U11", "04.10.2025", "Lindau", "10:00", "1:2"⟩

/-- A U9 game in the same week (U9 reports no scores). -/
def rowU9 : Row := ⟨"U9", "05.10.2025", "Lindau", "09:00", "0:0"⟩

/-- An away game: the Gegner field carries the away tag and the Spielstand
holds the raw opponent-first score. -/
def rowU15away : Row := ⟨"U15", "05.10.2025", "ECDC Memmingen [A]", "17:00", "3:5"⟩

/-- A time-mode row whose Zeit value has no colon. -/
def rowNoColon : Row := ⟨"U17", "04.10.2025", "EV Lindau [H]", "1830", "3:5"⟩

/-- A time-mode row whose Zeit value has two colons. -/
def rowTwoColons : Row := ⟨"U17", "04.10.2025", "EV Lindau [H]", "18:30:00", "3:5"⟩

/-- The box construction for the single-slot configurations used below:
one slot between top y = 400 and the fixed bottom y fits comfortably. -/
theorem boxOfRectangles_one_eq :
    boxOfRectangles 1 400 BOTTOM_Y =
      Except.ok [⟨(WIDTH_PTS - RECT_W) / 2, slotY 1 400 BOTTOM_Y 0⟩] := by
  have hlt : (400 : ℚ) < BOTTOM_Y := by
    norm_num [BOTTOM_Y, MM_TO_UNITS, DPI]
  have hov : ¬ (yPosStart 1 400 BOTTOM_Y + ((1 : ℕ) : ℚ) * (RECT_H + H_PAD) - H_PAD
      > BOTTOM_Y) := by
    norm_num [yPosStart, BOTTOM_Y, RECT_H, H_PAD, MM_TO_UNITS, DPI, WIDTH_PTS]
  rw [boxOfRectangles_eq, if_pos hlt, if_neg hov]
  rfl

/-- C10: in both render modes every record value is split at the colon and
must yield exactly two fields (the unpacking succeeds iff the value has
exactly one colon); a well-formed value such as 18:30 becomes the aligned
pair of fields 18 and 30 in the drawn card, while a value with no colon or
with two colons aborts the whole render pass with an error even in time
mode. -/
theorem colon_split_required :
    (∀ s : List Char, (pairSplit s).isSome ↔ s.count ':' = 1) ∧
    pairSplitStr "18:30" = some ("18", "30") ∧
    (renderPass [rowU17] false 400 BOTTOM_Y).map
        (fun p => p.2.map DrawnCard.valuePairs) = Except.ok [[("18", "30")]] ∧
    renderPass [rowNoColon] false 400 BOTTOM_Y = Except.error Err.valueUnpack ∧
    renderPass [rowTwoColons] false 400 BOTTOM_Y = Except.error Err.valueUnpack := by
  refine ⟨pairSplit_isSome_iff, rfl, ?_, ?_, ?_⟩
  · simp only [renderPass]
    rw [show nTeams [rowU17] false = 1 from rfl, boxOfRectangles_one_eq]
    rfl
  · simp only [renderPass]
    rw [show nTeams [rowNoColon] false = 1 from rfl, boxOfRectangles_one_eq]
    rfl
  · simp only [renderPass]
    rw [show nTeams [rowTwoColons] false = 1 from rfl, boxOfRectangles_one_eq]
    rfl

/-- C3 (code bug): in score mode the no-score teams are excluded from the
slot count, but the draw loop zips the slots against the unfiltered unique
team index and skips U11/U9 pairs after the fact.  With the no-score teams
first in index order ([U11, U17, U9]), exactly 1 slot is produced yet no
card at all is drawn - the single rectangle is consumed by the skipped U11
pair and the zip is exhausted before U17 is reached; with U17 first the
card is drawn.  The outcome therefore depends on iteration order,
contradicting the claim. -/
theorem score_mode_zip_drops_remaining_card :
    (renderPass [rowU11, rowU17, rowU9] true 400 BOTTOM_Y).map
        (fun p => (p.1.length, p.2.map DrawnCard.team)) = Except.ok (1, []) ∧
    (renderPass [rowU17, rowU11, rowU9] true 400 BOTTOM_Y).map
        (fun p => (p.1.length, p.2.map DrawnCard.team)) = Except.ok (1, ["U17"]) := by
  constructor
  · simp only [renderPass]
    rw [show nTeams [rowU11, rowU17, rowU9] true = 1 from rfl, boxOfRectangles_one_eq]
    rfl
  · simp only [renderPass]
    rw [show nTeams [rowU17, rowU11, rowU9] true = 1 from rfl, boxOfRectangles_one_eq]
    rfl

/-- C5 (code bug): when the slot count (1, excluding no-score teams)
disagrees with the number of distinct team groups iterated by the draw loop
(3), the render pass does not fail fast: it completes without any error,
silently drawing zero cards and leaving the produced slot empty. -/
theorem render_pass_no_failfast_on_mismatch :
    nTeams [rowU11, rowU9, rowU17] true = 1 ∧
    (uniqueFirst ([rowU11, rowU9, rowU17].map Row.team)).length = 3 ∧
    (renderPass [rowU11, rowU9, rowU17] true 400 BOTTOM_Y).map
        (fun p => (p.1.length, p.2.length)) = Except.ok (1, 0) := by
  refine ⟨rfl, rfl, ?_⟩
  simp only [renderPass]
  rw [show nTeams [rowU11, rowU9, rowU17] true = 1 from rfl, boxOfRectangles_one_eq]
  rfl

/-- C4 (code bug): the Cairo card renderer splits an away record's score
value without swapping the fields - the away game with raw value 3:5 is
drawn as the pair (3, 5), not (5, 3) - whereas the legacy scorecard path
(run.py lines 276-281) does reverse an away score to 5:3 before display and
leaves a home score unchanged. -/
theorem away_score_not_swapped :
    (renderPass [rowU15away] true 400 BOTTOM_Y).map
        (fun p => p.2.map DrawnCard.valuePairs) = Except.ok [[("3", "5")]] ∧
    scorecardGoals "@ MEM" "3:5" = "5:3" ∧
    scorecardGoals "MEM" "3:5" = "3:5" := by
  refine ⟨?_, rfl, rfl⟩
  simp only [renderPass]
  rw [show nTeams [rowU15away] true = 1 from rfl, boxOfRectangles_one_eq]
  rfl

end Sharepic
